import Mathlib

/-!
# bud: reload classification, the app server run loop, and the remote generator

A shallow embedding of

* `internal/cli/run/run.go`: `canIncrementallyReload`, `catchError`, `appServer.Run`
* `framework/generator/generator.go`: `Generator.GenerateFile`

Calls into collaborators (the bud filesystem, the builder, the process supervisor, the
bus, the prompter, the logger) are recorded, in program order, in a trace of actions.
The outcome of every fallible collaborator call is an input of the model, so every
theorem quantifies over all behaviours of the collaborators.
-/

namespace Bud

/-! ## Data model -/

/-- The text of a Go `error` (what `err.Error()` returns). -/
abbrev Err := String

/-- An application or generator child process (a `*exe.Process` / `*remotefs.Process`). -/
abbrev Handle := Nat

/-- Modelled from the spec: the declaration of `watcher.Op` is not part of the sources;
the spec gives `op: Create|Update|Delete`. -/
inductive Op where
  | OpCreate
  | OpUpdate
  | OpDelete
  deriving DecidableEq, Repr

/-- A `watcher.Event`, with the two fields `run.go` reads. -/
structure Event where
  Op : Op
  Path : String
  deriving DecidableEq, Repr

/-! ## `path/filepath.Ext` (Go standard library, Unix path separator)

```go
for i := len(path) - 1; i >= 0 && !os.IsPathSeparator(path[i]); i-- {
    if path[i] == '.' { return path[i:] }
}
return ""
```
-/

/-- The backwards scan of `filepath.Ext`: `rev` is what is left of the path, read from its
end, and `acc` is the part of the path already passed, in path order. -/
def extScan : List Char → List Char → List Char
  | [], _ => []
  | c :: rev, acc =>
    if c = '/' then []
    else if c = '.' then '.' :: acc
    else extScan rev (c :: acc)

/-- The function `filepath.Ext`: the extension of `path`, from the last dot of its last
element, or the empty string. -/
def Ext (path : String) : String :=
  String.mk (extScan path.data.reverse [])

/-! ## `canIncrementallyReload` (run.go 274-282) -/

/-- The function `canIncrementallyReload`: the loop returns `false` at the first event that is not an
update, or whose path has the extension `.go`; it returns `true` when the loop ends. -/
def canIncrementallyReload : List Event → Bool
  | [] => true
  | event :: events =>
    if event.Op ≠ Op.OpUpdate ∨ Ext event.Path = ".go" then false
    else canIncrementallyReload events

/-! ## The app server (run.go 178-272)

Every call `appServer.Run` makes on a collaborator is an `Action`; a run of the code is
the list of its actions in program order. -/

/-- A call on a collaborator of `appServer`. The payload of `busPublish` is `none` for a
Go `nil` payload and `some s` for `[]byte(s)`. -/
inductive Action where
  | logDebug (format : String) (args : List String)
  | prompterReloading (events : List Event)
  | prompterSuccessReload
  | prompterFailReload (message : String)
  | busPublish (topic : String) (payload : Option String)
  | bfsSync
  | bfsChange (paths : List String)
  | builderBuild (mainPath outPath : String)
  | starterStart (path : String)
  | processClose (process : Handle)
  | processRestart (process : Handle)
  | watcherWatch (dir : String)
  deriving DecidableEq, Repr

/-- What the collaborators answer during the initial cycle of `Run`: `none` is a nil
error. `start` is the process `starter.Start` returns when `startErr` is nil. -/
structure StartOutcomes where
  sync : Option Err
  build : Option Err
  startErr : Option Err
  start : Handle

/-- What the collaborators answer during one call of the reload callback. `restart` is
the process `process.Restart` returns when `restartErr` is nil. -/
structure ReloadOutcomes where
  close : Option Err
  sync : Option Err
  build : Option Err
  restartErr : Option Err
  restart : Handle

/-- The result of one call of a watch callback: the actions it performed, the value of the
captured variable `process` when it returns, and the error it returns. -/
structure Step where
  trace : List Action
  process : Handle
  err : Option Err
  deriving DecidableEq, Repr

/-- The first part of the callback (run.go 213-221): the prompter is told, every path is
logged and collected, and `bfs.Change` receives the collected paths. -/
def reloadChange (events : List Event) : List Action :=
  [Action.prompterReloading events]
    ++ events.map (fun event => Action.logDebug "run: file path changed %q" [event.Path])
    ++ [Action.bfsChange (events.map (fun event => event.Path))]

/-- The function literal `appServer.Run` passes to `catchError` (run.go 212-260), called
with the captured variable `process`. `time.Now` and `time.Since` are left out, so the
last log line carries no argument. -/
def reload (o : ReloadOutcomes) (process : Handle) (events : List Event) : Step :=
  let t := reloadChange events
  if canIncrementallyReload events then
    { trace := t ++
        [ Action.logDebug "run: incrementally reloading" [],
          Action.busPublish "frontend:update" none,
          Action.logDebug "run: published event %q" ["frontend:update"],
          Action.busPublish "app:ready" none,
          Action.logDebug "run: published event %q" ["app:ready"],
          Action.prompterSuccessReload ],
      process := process, err := none }
  else
    let t := t ++ [Action.logDebug "run: restarting the process" [], Action.processClose process]
    match o.close with
    | some err => { trace := t, process := process, err := some err }
    | none =>
    let t := t ++
      [ Action.busPublish "backend:update" none,
        Action.logDebug "run: published event %q" ["backend:update"],
        Action.bfsSync ]
    match o.sync with
    | some err => { trace := t, process := process, err := some err }
    | none =>
    let t := t ++ [Action.builderBuild "bud/internal/app/main.go" "bud/app"]
    match o.build with
    | some err => { trace := t, process := process, err := some err }
    | none =>
    let t := t ++ [Action.processRestart process]
    match o.restartErr with
    | some err =>
      { trace := t ++
          [ Action.busPublish "app:error" none,
            Action.logDebug "run: published event %q" ["app:error"] ],
        process := process, err := some err }
    | none =>
      { trace := t ++
          [ Action.prompterSuccessReload,
            Action.logDebug "restarted the process in %d" [] ],
        process := o.restart, err := none }

/-- The function `catchError` (run.go 263-272): the wrapped function is called; when it returns an
error the prompter receives the error text; the wrapper returns nil either way. -/
def catchError (fn : List Event → Step) (events : List Event) : Step :=
  let s := fn events
  match s.err with
  | some err =>
    { trace := s.trace ++ [Action.prompterFailReload err], process := s.process, err := none }
  | none => { trace := s.trace, process := s.process, err := none }

/-- The callback `appServer.Run` hands to `watcher.Watch`. -/
def callback (o : ReloadOutcomes) (process : Handle) (events : List Event) : Step :=
  catchError (reload o process) events

/-- Modelled from the spec: `watcher.Watch` is not part of the sources. It calls `fn` on
each batch in turn, never two at a time; an error returned by `fn` ends the loop and is
returned; when the batches end (the context is cancelled) it returns nil. The state of
the variables `fn` captures is passed from one call to the next. -/
def Watch (fn : ReloadOutcomes → Handle → List Event → Step) :
    Handle → List (ReloadOutcomes × List Event) → Step
  | process, [] => { trace := [], process := process, err := none }
  | process, (o, events) :: batches =>
    let s := fn o process events
    match s.err with
    | some err => { trace := s.trace, process := s.process, err := some err }
    | none =>
      let r := Watch fn s.process batches
      { trace := s.trace ++ r.trace, process := r.process, err := r.err }

/-- The result of `appServer.Run`: its actions and the error it returns. -/
structure RunResult where
  trace : List Action
  err : Option Err
  deriving DecidableEq, Repr

/-- Publishing `app:error` with the text of `err`, then the log line (run.go 194-195,
200-201, 207-208). -/
def publishError (err : Err) : List Action :=
  [ Action.busPublish "app:error" (some err),
    Action.logDebug "run: published event %q" ["app:error"] ]

/-- The method `appServer.Run` (run.go 191-261) for an app directory `dir`: the initial cycle, then
the watch loop over `batches`. -/
def Run (dir : String) (i : StartOutcomes) (batches : List (ReloadOutcomes × List Event)) :
    RunResult :=
  let t := [Action.bfsSync]
  match i.sync with
  | some err => { trace := t ++ publishError err, err := some err }
  | none =>
  let t := t ++ [Action.builderBuild "bud/internal/app/main.go" "bud/app"]
  match i.build with
  | some err => { trace := t ++ publishError err, err := some err }
  | none =>
  let t := t ++ [Action.starterStart "bud/app"]
  match i.startErr with
  | some err => { trace := t ++ publishError err, err := some err }
  | none =>
  let w := Watch callback i.start batches
  { trace := t ++ [Action.watcherWatch dir] ++ w.trace, err := w.err }

/-- The bus messages of a trace, in publish order. -/
def published (trace : List Action) : List (String × Option String) :=
  trace.filterMap fun a =>
    match a with
    | Action.busPublish topic payload => some (topic, payload)
    | _ => none

/-- The argument lists of the `bfs.Change` calls of a trace, in call order. -/
def changed (trace : List Action) : List (List String) :=
  trace.filterMap fun a =>
    match a with
    | Action.bfsChange paths => some paths
    | _ => none

/-! ## The remote generator (generator.go 45-109) -/

/-- A call `Generator.GenerateFile` makes on a collaborator. `processClose` and `cmdStart`
carry what the call answered: the error of `Close` (`none` for nil), and the process
`Start` returned (`none` when it returned an error). -/
inductive GenAction where
  | logDebug (message : String)
  | load
  | generate
  | setFileData (code : String)
  | moduleMkdirAll (path : String)
  | moduleWriteFile (path : String) (code : String)
  | builderBuild (mainPath outPath : String)
  | processClose (process : Handle) (err : Option Err)
  | cmdStart (path : String) (started : Option Handle)
  | fsysDefer
  | bfsMount (process : Handle)
  deriving DecidableEq, Repr

/-- What the collaborators answer during one call of `GenerateFile`. `code` is what
`Generate` returns and `start` the process `cmd.Start` returns, when they succeed. -/
structure GenOutcomes where
  load : Option Err
  generate : Option Err
  code : String
  mkdirAll : Option Err
  writeFile : Option Err
  build : Option Err
  close : Option Err
  startErr : Option Err
  start : Handle

/-- The result of one call of `GenerateFile`: its actions, the field `g.process` when it
returns, and the error it returns. -/
structure GenStep where
  trace : List GenAction
  process : Option Handle
  err : Option Err
  deriving DecidableEq, Repr

/-- Lines 75-81: an existing process is closed, and the field is cleared when `Close`
succeeded. Returns the actions and the error of `Close`. -/
def closeExisting (o : GenOutcomes) : Option Handle → List GenAction × Option Err
  | none => ([], none)
  | some p =>
    ([ GenAction.logDebug "framework/generator: closing existing process",
       GenAction.processClose p o.close ], o.close)

/-- The method `Generator.GenerateFile` (generator.go 46-109), called with the field `g.process`
holding `process`. A failing `cmd.Start` returns a nil process, which the assignment of
line 90 stores in `g.process`. -/
def GenerateFile (o : GenOutcomes) (process : Option Handle) : GenStep :=
  let t :=
    [ GenAction.logDebug
        "framework/generator: generating the main.go service containing the generators",
      GenAction.load ]
  match o.load with
  | some err =>
    { trace := t, process := process,
      err := some ("framework/generator: unable to load. " ++ err) }
  | none =>
  let t := t ++ [GenAction.generate]
  match o.generate with
  | some err => { trace := t, process := process, err := some err }
  | none =>
  let t := t ++
    [ GenAction.setFileData o.code,
      GenAction.logDebug
        "framework/generator: write the generator main.go file to bud/command/.generate/main.go",
      GenAction.moduleMkdirAll "bud/command/.generate" ]
  match o.mkdirAll with
  | some err => { trace := t, process := process, err := some err }
  | none =>
  let t := t ++ [GenAction.moduleWriteFile "bud/command/.generate/main.go" o.code]
  match o.writeFile with
  | some err => { trace := t, process := process, err := some err }
  | none =>
  let t := t ++
    [ GenAction.logDebug "framework/generator: build the main.go file to bud/.generate",
      GenAction.builderBuild "bud/command/.generate/main.go" "bud/.generate" ]
  match o.build with
  | some err =>
    { trace := t, process := process,
      err := some ("framework/generator: unable to build \x27bud/.generate\x27. " ++ err) }
  | none =>
  let t := t ++ (closeExisting o process).1
  match (closeExisting o process).2 with
  | some err => { trace := t, process := process, err := some err }
  | none =>
  let t := t ++
    [ GenAction.logDebug
        "framework/generator: start bud/.generate that will serve the remote filesystem" ]
  match o.startErr with
  | some err =>
    { trace := t ++ [GenAction.cmdStart "bud/.generate" none], process := none,
      err := some err }
  | none =>
    { trace := t ++
        [ GenAction.cmdStart "bud/.generate" (some o.start),
          GenAction.fsysDefer,
          GenAction.logDebug "framework/generator: mounting the running remote filesystem",
          GenAction.bfsMount o.start ],
      process := some o.start, err := none }

/-- A sequence of `GenerateFile` calls on one generator, one per element of `os`, starting
with `g.process` holding `process`: all the actions in order, and the final field. -/
def GenerateFiles : Option Handle → List GenOutcomes → List GenAction × Option Handle
  | process, [] => ([], process)
  | process, o :: os =>
    let s := GenerateFile o process
    let r := GenerateFiles s.process os
    (s.trace ++ r.1, r.2)

/-- The effect of one action on the children that are started and not closed: a
successful `Start` adds the child it returns, a successful `Close` removes the child it
was called on. -/
def liveStep (live : List Handle) : GenAction → List Handle
  | GenAction.cmdStart _ (some h) => h :: live
  | GenAction.processClose h none => live.filter (fun k => k ≠ h)
  | _ => live

/-- The children started and not closed after the actions of `trace`, from `live`. -/
def liveFrom (live : List Handle) (trace : List GenAction) : List Handle :=
  trace.foldl liveStep live

/-- The children started and not closed after the actions of `trace`. -/
def live (trace : List GenAction) : List Handle :=
  liveFrom [] trace

/-- The effect of one action on the most recently started child. -/
def startedStep (last : Option Handle) : GenAction → Option Handle
  | GenAction.cmdStart _ (some h) => some h
  | _ => last

/-- The most recently started child after the actions of `trace`, from `last`. -/
def lastStartedFrom (last : Option Handle) (trace : List GenAction) : Option Handle :=
  trace.foldl startedStep last

/-- The most recently started child after the actions of `trace`. -/
def lastStarted (trace : List GenAction) : Option Handle :=
  lastStartedFrom none trace

/-- What an action requires of the moment it happens at: a successful `Start` finds no
child started and not closed; `Mount` receives the most recently started child, which is
the one child started and not closed. -/
def stepOk (live : List Handle) (last : Option Handle) : GenAction → Prop
  | GenAction.cmdStart _ (some _) => live = []
  | GenAction.bfsMount h => last = some h ∧ live = [h]
  | _ => True

/-- Every moment of `trace`, from `live` and `last`, has at most one child started and
not closed, and every action meets `stepOk`. -/
def ordered (live : List Handle) (last : Option Handle) : List GenAction → Prop
  | [] => live.length ≤ 1
  | a :: trace =>
    live.length ≤ 1 ∧ stepOk live last a ∧
      ordered (liveStep live a) (startedStep last a) trace

/-! ## Theorems: the reload classifier -/

theorem canIncrementallyReload_cons (event : Event) (events : List Event) :
    canIncrementallyReload (event :: events) =
      (decide (event.Op = Op.OpUpdate ∧ Ext event.Path ≠ ".go") &&
        canIncrementallyReload events) := by
  by_cases h1 : event.Op = Op.OpUpdate <;> by_cases h2 : Ext event.Path = ".go" <;>
    simp [canIncrementallyReload, h1, h2]

theorem canIncrementallyReload_eq_true (events : List Event) :
    canIncrementallyReload events = true ↔
      ∀ e ∈ events, e.Op = Op.OpUpdate ∧ Ext e.Path ≠ ".go" := by
  induction events with
  | nil => simp [canIncrementallyReload]
  | cons event events ih => simp [canIncrementallyReload_cons, ih]

theorem not_update_iff (op : Op) : op ≠ Op.OpUpdate ↔ op = Op.OpCreate ∨ op = Op.OpDelete := by
  cases op <;> simp

/-- C1: for every batch, the empty one included, `canIncrementallyReload` returns `true`
exactly when every event is an update of a path whose extension is not `.go`; it returns
`false` exactly when some event is a create, a delete, or an update of a `.go` path,
wherever that event stands in the batch and whatever the other events are. -/
theorem C1_canIncrementallyReload_spec (events : List Event) :
    (canIncrementallyReload events = true ↔
      ∀ e ∈ events, e.Op = Op.OpUpdate ∧ Ext e.Path ≠ ".go") ∧
    (canIncrementallyReload events = false ↔
      ∃ e ∈ events, e.Op = Op.OpCreate ∨ e.Op = Op.OpDelete ∨
        (e.Op = Op.OpUpdate ∧ Ext e.Path = ".go")) ∧
    (∀ (before after : List Event) (e : Event),
      events = before ++ e :: after →
      (e.Op = Op.OpCreate ∨ e.Op = Op.OpDelete ∨ (e.Op = Op.OpUpdate ∧ Ext e.Path = ".go")) →
      canIncrementallyReload events = false) := by
  have key : canIncrementallyReload events = false ↔
      ∃ e ∈ events, e.Op = Op.OpCreate ∨ e.Op = Op.OpDelete ∨
        (e.Op = Op.OpUpdate ∧ Ext e.Path = ".go") := by
    rw [← Bool.not_eq_true, canIncrementallyReload_eq_true]
    constructor
    · intro h
      push_neg at h
      obtain ⟨e, he, h2⟩ := h
      refine ⟨e, he, ?_⟩
      by_cases hu : e.Op = Op.OpUpdate
      · exact Or.inr (Or.inr ⟨hu, h2 hu⟩)
      · rcases (not_update_iff e.Op).1 hu with h3 | h3
        · exact Or.inl h3
        · exact Or.inr (Or.inl h3)
    · rintro ⟨e, he, h⟩ hall
      have h4 := hall e he
      rcases h with h | h | h
      · rw [h] at h4; exact absurd h4.1 (by decide)
      · rw [h] at h4; exact absurd h4.1 (by decide)
      · exact h4.2 h.2
  refine ⟨canIncrementallyReload_eq_true events, key, ?_⟩
  intro before after e hev hbad
  exact key.2 ⟨e, by simp [hev], hbad⟩

/-- The witness of C1: a batch with a create among stylesheet updates is not incremental. -/
theorem C1_canIncrementallyReload_spec_witness :
    canIncrementallyReload
      [⟨Op.OpUpdate, "public/app.css"⟩, ⟨Op.OpCreate, "public/new.css"⟩,
        ⟨Op.OpUpdate, "public/b.css"⟩] = false :=
  (C1_canIncrementallyReload_spec _).2.2 [⟨Op.OpUpdate, "public/app.css"⟩]
    [⟨Op.OpUpdate, "public/b.css"⟩] ⟨Op.OpCreate, "public/new.css"⟩ rfl (Or.inl rfl)

/-! ## Theorems: the reload callback -/

theorem reload_incremental (o : ReloadOutcomes) (process : Handle) (events : List Event)
    (h : canIncrementallyReload events = true) :
    reload o process events =
      { trace := reloadChange events ++
          [ Action.logDebug "run: incrementally reloading" [],
            Action.busPublish "frontend:update" none,
            Action.logDebug "run: published event %q" ["frontend:update"],
            Action.busPublish "app:ready" none,
            Action.logDebug "run: published event %q" ["app:ready"],
            Action.prompterSuccessReload ],
        process := process, err := none } := by
  simp [reload, h]

/-- C2: for a batch classified incremental, the callback handed to the watcher calls
`bfs.Change` once, with the paths of the batch in batch order, publishes exactly
`frontend:update` and then `app:ready`, calls none of `process.Close`, `process.Restart`,
`bfs.Sync`, `builder.Build`, leaves the variable `process` as it was, and returns nil (as
does the function it wraps). -/
theorem C2_incremental_reload (o : ReloadOutcomes) (process : Handle) (events : List Event)
    (h : canIncrementallyReload events = true) :
    changed (callback o process events).trace = [events.map (fun e => e.Path)] ∧
    published (callback o process events).trace =
      [("frontend:update", none), ("app:ready", none)] ∧
    (∀ a ∈ (callback o process events).trace,
      (∀ p, a ≠ Action.processClose p) ∧ (∀ p, a ≠ Action.processRestart p) ∧
      a ≠ Action.bfsSync ∧ (∀ m out, a ≠ Action.builderBuild m out)) ∧
    (callback o process events).process = process ∧
    (callback o process events).err = none ∧
    (reload o process events).err = none := by
  have hc : callback o process events = reload o process events := by
    simp [callback, catchError, reload_incremental o process events h]
  rw [hc, reload_incremental o process events h]
  refine ⟨?_, ?_, ?_, rfl, rfl, rfl⟩
  · simp [changed, reloadChange, List.filterMap_append, List.filterMap_map]
  · simp [published, reloadChange, List.filterMap_append, List.filterMap_map]
  · intro a ha
    simp only [reloadChange, List.mem_append, List.mem_cons, List.mem_map,
      List.mem_singleton, List.not_mem_nil, or_false] at ha
    rcases ha with ((ha | ⟨e, _, ha⟩) | ha) | ha
    · subst ha; simp
    · subst ha; simp
    · subst ha; simp
    · rcases ha with ha | ha | ha | ha | ha | ha <;> subst ha <;> simp

/-- The witness of C2: a stylesheet update (Scenario A). -/
theorem C2_incremental_reload_witness :
    canIncrementallyReload [⟨Op.OpUpdate, "public/app.css"⟩] = true ∧
    changed (callback ⟨none, none, none, none, 8⟩ 7
      [⟨Op.OpUpdate, "public/app.css"⟩]).trace = [["public/app.css"]] ∧
    published (callback ⟨none, none, none, none, 8⟩ 7
      [⟨Op.OpUpdate, "public/app.css"⟩]).trace =
      [("frontend:update", none), ("app:ready", none)] :=
  ⟨by decide,
   (C2_incremental_reload ⟨none, none, none, none, 8⟩ 7
      [⟨Op.OpUpdate, "public/app.css"⟩] (by decide)).1,
   (C2_incremental_reload ⟨none, none, none, none, 8⟩ 7
      [⟨Op.OpUpdate, "public/app.css"⟩] (by decide)).2.1⟩

theorem reload_full (o : ReloadOutcomes) (process : Handle) (events : List Event)
    (hfull : canIncrementallyReload events = false) (hclose : o.close = none)
    (hsync : o.sync = none) (hbuild : o.build = none) (hrestart : o.restartErr = none) :
    reload o process events =
      { trace := reloadChange events ++
          [ Action.logDebug "run: restarting the process" [],
            Action.processClose process,
            Action.busPublish "backend:update" none,
            Action.logDebug "run: published event %q" ["backend:update"],
            Action.bfsSync,
            Action.builderBuild "bud/internal/app/main.go" "bud/app",
            Action.processRestart process,
            Action.prompterSuccessReload,
            Action.logDebug "restarted the process in %d" [] ],
        process := o.restart, err := none } := by
  simp [reload, hfull, hclose, hsync, hbuild, hrestart]

theorem published_reloadChange (events : List Event) : published (reloadChange events) = [] := by
  simp [published, reloadChange, List.filterMap_append, List.filterMap_map]

theorem published_append (s t : List Action) : published (s ++ t) = published s ++ published t := by
  simp [published, List.filterMap_append]

/-- C3, the claim as stated fails: on a full reload in which `Close`, `Sync`, `Build` and
`Restart` all succeed (Scenario B), `backend:update` is the only message the callback
publishes; no `app:ready` follows the `Restart`, in the callback or in the whole run. -/
theorem C3_no_app_ready_after_restart :
    canIncrementallyReload [⟨Op.OpUpdate, "app/controller.go"⟩] = false ∧
    published (callback ⟨none, none, none, none, 8⟩ 7
      [⟨Op.OpUpdate, "app/controller.go"⟩]).trace = [("backend:update", none)] ∧
    published (Run "." ⟨none, none, none, 7⟩
      [(⟨none, none, none, none, 8⟩, [⟨Op.OpUpdate, "app/controller.go"⟩])]).trace =
      [("backend:update", none)] := by
  decide

/-- C3, amended: for a batch classified full for which `Close`, `Sync`, `Build` and
`Restart` all succeed, the callback calls `process.Close`, publishes `backend:update`,
calls `bfs.Sync`, `builder.Build` and `process.Restart`, in that order; `backend:update`
is the only message it publishes; it returns nil; the process `Restart` returned is the
value of `process` afterwards, and the watch loop calls the callback on the next batch
with that process. -/
theorem C3_full_reload (o : ReloadOutcomes) (process : Handle) (events : List Event)
    (hfull : canIncrementallyReload events = false) (hclose : o.close = none)
    (hsync : o.sync = none) (hbuild : o.build = none) (hrestart : o.restartErr = none) :
    (callback o process events).trace =
      reloadChange events ++
        [ Action.logDebug "run: restarting the process" [],
          Action.processClose process,
          Action.busPublish "backend:update" none,
          Action.logDebug "run: published event %q" ["backend:update"],
          Action.bfsSync,
          Action.builderBuild "bud/internal/app/main.go" "bud/app",
          Action.processRestart process,
          Action.prompterSuccessReload,
          Action.logDebug "restarted the process in %d" [] ] ∧
    published (callback o process events).trace = [("backend:update", none)] ∧
    (callback o process events).process = o.restart ∧
    (callback o process events).err = none ∧
    (∀ batches : List (ReloadOutcomes × List Event),
      Watch callback process ((o, events) :: batches) =
        { trace := (callback o process events).trace ++
            (Watch callback o.restart batches).trace,
          process := (Watch callback o.restart batches).process,
          err := (Watch callback o.restart batches).err }) := by
  have hc : callback o process events = reload o process events := by
    simp [callback, catchError, reload_full o process events hfull hclose hsync hbuild hrestart]
  have hr := reload_full o process events hfull hclose hsync hbuild hrestart
  refine ⟨by rw [hc, hr], ?_, by rw [hc, hr], by rw [hc, hr], ?_⟩
  · rw [hc, hr]
    simp only [published_append, published_reloadChange]
    simp [published]
  · intro batches
    simp [Watch, hc, hr]

/-- The witness of C3: a controller update, the restarted process being 8 (Scenario B). -/
theorem C3_full_reload_witness :
    canIncrementallyReload [⟨Op.OpUpdate, "app/controller.go"⟩] = false ∧
    (callback ⟨none, none, none, none, 8⟩ 7 [⟨Op.OpUpdate, "app/controller.go"⟩]).process = 8 :=
  ⟨by decide,
   (C3_full_reload ⟨none, none, none, none, 8⟩ 7 [⟨Op.OpUpdate, "app/controller.go"⟩]
      (by decide) rfl rfl rfl rfl).2.2.1⟩

/-- C4, the code at the failing input: a controller update whose `Build` fails with
"build failed" after `Close` and `Sync` succeeded (Scenario C). The callback publishes
`backend:update` and nothing else, so no `app:error`; the error text only reaches the
prompter; `Restart` is not called. -/
theorem C4_build_failure_not_published :
    published (callback ⟨none, none, some "build failed", none, 8⟩ 7
      [⟨Op.OpUpdate, "app/controller.go"⟩]).trace = [("backend:update", none)] ∧
    Action.prompterFailReload "build failed" ∈
      (callback ⟨none, none, some "build failed", none, 8⟩ 7
        [⟨Op.OpUpdate, "app/controller.go"⟩]).trace ∧
    Action.processRestart 7 ∉
      (callback ⟨none, none, some "build failed", none, 8⟩ 7
        [⟨Op.OpUpdate, "app/controller.go"⟩]).trace := by
  decide

theorem mem_reloadChange (a : Action) (events : List Event) (h : a ∈ reloadChange events) :
    a = Action.prompterReloading events ∨
      (∃ e ∈ events, a = Action.logDebug "run: file path changed %q" [e.Path]) ∨
      a = Action.bfsChange (events.map (fun event => event.Path)) := by
  simp only [reloadChange, List.mem_append, List.mem_cons, List.mem_map,
    List.mem_singleton, List.not_mem_nil, or_false] at h
  rcases h with (h | ⟨e, he, h⟩) | h
  · exact Or.inl h
  · exact Or.inr (Or.inl ⟨e, he, h.symm⟩)
  · exact Or.inr (Or.inr h)

theorem restart_not_mem_reloadChange (p : Handle) (events : List Event) :
    Action.processRestart p ∉ reloadChange events := by
  intro h
  rcases mem_reloadChange _ _ h with h | ⟨e, _, h⟩ | h <;> cases h

/-- C5, the claim as stated fails: on a controller update whose `Build` fails after
`Close` and `Sync` succeeded, and on one whose `Sync` fails after `Close` succeeded,
`process.Close` has been called on the running process 7. -/
theorem C5_process_closed_before_failure :
    Action.processClose 7 ∈
      (callback ⟨none, none, some "build failed", none, 8⟩ 7
        [⟨Op.OpUpdate, "app/controller.go"⟩]).trace ∧
    Action.processClose 7 ∈
      (callback ⟨none, some "sync failed", none, none, 8⟩ 7
        [⟨Op.OpUpdate, "app/controller.go"⟩]).trace := by
  decide

/-- C5, amended: if `bfs.Sync` or `builder.Build` fails with `e` during the reload cycle
of a full batch, then `process.Close` was called on the current process, and succeeded,
before `bfs.Sync` was called; `process.Restart` is not called; the variable `process` is
the same as before the batch; the wrapped function returns `e`. -/
theorem C5_sync_or_build_failure (o : ReloadOutcomes) (process : Handle) (events : List Event)
    (e : Err) (hfull : canIncrementallyReload events = false) (hclose : o.close = none)
    (hfail : o.sync = some e ∨ (o.sync = none ∧ o.build = some e)) :
    (∃ before after : List Action,
      (callback o process events).trace =
        before ++ Action.processClose process :: after ∧
      Action.bfsSync ∉ before ∧ Action.bfsSync ∈ after) ∧
    (∀ p, Action.processRestart p ∉ (callback o process events).trace) ∧
    (callback o process events).process = process ∧
    (reload o process events).err = some e := by
  rcases hfail with hs | ⟨hs, hb⟩
  · have hr : reload o process events =
        { trace := reloadChange events ++
            [ Action.logDebug "run: restarting the process" [],
              Action.processClose process,
              Action.busPublish "backend:update" none,
              Action.logDebug "run: published event %q" ["backend:update"],
              Action.bfsSync ],
          process := process, err := some e } := by
      simp [reload, hfull, hclose, hs]
    have hc : callback o process events =
        { trace := (reloadChange events ++
            [ Action.logDebug "run: restarting the process" [],
              Action.processClose process,
              Action.busPublish "backend:update" none,
              Action.logDebug "run: published event %q" ["backend:update"],
              Action.bfsSync ]) ++ [Action.prompterFailReload e],
          process := process, err := none } := by
      simp [callback, catchError, hr]
    refine ⟨⟨reloadChange events ++ [Action.logDebug "run: restarting the process" []],
      [ Action.busPublish "backend:update" none,
        Action.logDebug "run: published event %q" ["backend:update"],
        Action.bfsSync, Action.prompterFailReload e ], ?_, ?_, ?_⟩, ?_, ?_, ?_⟩
    · rw [hc]; simp
    · intro h
      rcases List.mem_append.1 h with h | h
      · rcases mem_reloadChange _ _ h with h | ⟨e, _, h⟩ | h <;> cases h
      · simp at h
    · simp
    · intro p h
      rw [hc] at h
      rcases List.mem_append.1 h with h | h
      · rcases List.mem_append.1 h with h | h
        · exact restart_not_mem_reloadChange p events h
        · simp at h
      · simp at h
    · rw [hc]
    · rw [hr]
  · have hr : reload o process events =
        { trace := reloadChange events ++
            [ Action.logDebug "run: restarting the process" [],
              Action.processClose process,
              Action.busPublish "backend:update" none,
              Action.logDebug "run: published event %q" ["backend:update"],
              Action.bfsSync,
              Action.builderBuild "bud/internal/app/main.go" "bud/app" ],
          process := process, err := some e } := by
      simp [reload, hfull, hclose, hs, hb]
    have hc : callback o process events =
        { trace := (reloadChange events ++
            [ Action.logDebug "run: restarting the process" [],
              Action.processClose process,
              Action.busPublish "backend:update" none,
              Action.logDebug "run: published event %q" ["backend:update"],
              Action.bfsSync,
              Action.builderBuild "bud/internal/app/main.go" "bud/app" ]) ++
              [Action.prompterFailReload e],
          process := process, err := none } := by
      simp [callback, catchError, hr]
    refine ⟨⟨reloadChange events ++ [Action.logDebug "run: restarting the process" []],
      [ Action.busPublish "backend:update" none,
        Action.logDebug "run: published event %q" ["backend:update"],
        Action.bfsSync, Action.builderBuild "bud/internal/app/main.go" "bud/app",
        Action.prompterFailReload e ], ?_, ?_, ?_⟩, ?_, ?_, ?_⟩
    · rw [hc]; simp
    · intro h
      rcases List.mem_append.1 h with h | h
      · rcases mem_reloadChange _ _ h with h | ⟨e, _, h⟩ | h <;> cases h
      · simp at h
    · simp
    · intro p h
      rw [hc] at h
      rcases List.mem_append.1 h with h | h
      · rcases List.mem_append.1 h with h | h
        · exact restart_not_mem_reloadChange p events h
        · simp at h
      · simp at h
    · rw [hc]
    · rw [hr]

/-- The witness of C5: a controller update whose `Build` fails (Scenario C). -/
theorem C5_sync_or_build_failure_witness :
    canIncrementallyReload [⟨Op.OpUpdate, "app/controller.go"⟩] = false ∧
    (callback ⟨none, none, some "build failed", none, 8⟩ 7
      [⟨Op.OpUpdate, "app/controller.go"⟩]).process = 7 :=
  ⟨by decide,
   (C5_sync_or_build_failure ⟨none, none, some "build failed", none, 8⟩ 7
      [⟨Op.OpUpdate, "app/controller.go"⟩] "build failed" (by decide) rfl
      (Or.inr ⟨rfl, rfl⟩)).2.2.1⟩

/-- C6, the claim as stated fails: when `process.Close` fails with "close failed", and
when `process.Restart` fails with "restart failed", the callback handed to the watcher
returns nil; the run goes on to the next batch and ends without an error. -/
theorem C6_callback_returns_nil :
    (callback ⟨some "close failed", none, none, none, 8⟩ 7
      [⟨Op.OpUpdate, "app/controller.go"⟩]).err = none ∧
    (callback ⟨none, none, none, some "restart failed", 8⟩ 7
      [⟨Op.OpUpdate, "app/controller.go"⟩]).err = none ∧
    (Run "." ⟨none, none, none, 7⟩
      [ (⟨some "close failed", none, none, none, 8⟩, [⟨Op.OpUpdate, "app/controller.go"⟩]),
        (⟨none, none, none, none, 9⟩, [⟨Op.OpUpdate, "public/app.css"⟩]) ]).err = none ∧
    published (Run "." ⟨none, none, none, 7⟩
      [ (⟨some "close failed", none, none, none, 8⟩, [⟨Op.OpUpdate, "app/controller.go"⟩]),
        (⟨none, none, none, none, 9⟩, [⟨Op.OpUpdate, "public/app.css"⟩]) ]).trace =
      [("frontend:update", none), ("app:ready", none)] := by
  decide

/-- C6, amended: if `process.Close` or `process.Restart` returns an error `e` during a
reload cycle, the function `appServer.Run` passes to `catchError` returns `e`; the
callback handed to `watcher.Watch`, which is that function wrapped by `catchError`,
passes the text of `e` to `prompter.FailReload` as its last action and returns nil; the
variable `process` is unchanged, and the watch loop goes on to the next batch. -/
theorem C6_lifecycle_error_caught (o : ReloadOutcomes) (process : Handle)
    (events : List Event) (e : Err) (hfull : canIncrementallyReload events = false)
    (hfail : o.close = some e ∨
      (o.close = none ∧ o.sync = none ∧ o.build = none ∧ o.restartErr = some e)) :
    (reload o process events).err = some e ∧
    (callback o process events).err = none ∧
    (callback o process events).trace =
      (reload o process events).trace ++ [Action.prompterFailReload e] ∧
    (callback o process events).process = process ∧
    (∀ batches : List (ReloadOutcomes × List Event),
      Watch callback process ((o, events) :: batches) =
        { trace := (callback o process events).trace ++
            (Watch callback process batches).trace,
          process := (Watch callback process batches).process,
          err := (Watch callback process batches).err }) := by
  have hr : (reload o process events).err = some e ∧
      (reload o process events).process = process := by
    rcases hfail with hc | ⟨hc, hs, hb, hre⟩
    · simp [reload, hfull, hc]
    · simp [reload, hfull, hc, hs, hb, hre]
  have h1 : (callback o process events).err = none := by
    simp [callback, catchError, hr.1]
  have h2 : (callback o process events).trace =
      (reload o process events).trace ++ [Action.prompterFailReload e] := by
    simp [callback, catchError, hr.1]
  have h3 : (callback o process events).process = process := by
    simp [callback, catchError, hr.1, hr.2]
  refine ⟨hr.1, h1, h2, h3, ?_⟩
  intro batches
  simp only [Watch, h1, h3]

/-- The witness of C6: a controller update whose `Close` fails. -/
theorem C6_lifecycle_error_caught_witness :
    canIncrementallyReload [⟨Op.OpUpdate, "app/controller.go"⟩] = false ∧
    (reload ⟨some "close failed", none, none, none, 8⟩ 7
      [⟨Op.OpUpdate, "app/controller.go"⟩]).err = some "close failed" ∧
    (callback ⟨some "close failed", none, none, none, 8⟩ 7
      [⟨Op.OpUpdate, "app/controller.go"⟩]).err = none :=
  ⟨by decide,
   (C6_lifecycle_error_caught ⟨some "close failed", none, none, none, 8⟩ 7
      [⟨Op.OpUpdate, "app/controller.go"⟩] "close failed" (by decide) (Or.inl rfl)).1,
   (C6_lifecycle_error_caught ⟨some "close failed", none, none, none, 8⟩ 7
      [⟨Op.OpUpdate, "app/controller.go"⟩] "close failed" (by decide) (Or.inl rfl)).2.1⟩

/-- C7, the code at the failing input: a controller update whose `Restart` fails with
"restart failed" after `Close`, `Sync` and `Build` succeeded. The function returns that
error, and the `app:error` message it publishes has a nil payload, not the error text. -/
theorem C7_restart_failure_payload_nil :
    (reload ⟨none, none, none, some "restart failed", 8⟩ 7
      [⟨Op.OpUpdate, "app/controller.go"⟩]).err = some "restart failed" ∧
    published (callback ⟨none, none, none, some "restart failed", 8⟩ 7
      [⟨Op.OpUpdate, "app/controller.go"⟩]).trace =
      [("backend:update", none), ("app:error", none)] ∧
    published (Run "." ⟨none, none, none, 7⟩
      [(⟨none, none, none, some "restart failed", 8⟩,
        [⟨Op.OpUpdate, "app/controller.go"⟩])]).trace =
      [("backend:update", none), ("app:error", none)] := by
  decide

/-! ## Theorems: the initial cycle -/

/-- C8: in the initial cycle, if `bfs.Sync` fails with `e`, or `Sync` succeeds and
`builder.Build` fails with `e`, then `Run` performs exactly `Sync` (and `Build`, when
`Sync` succeeded), one publish of `app:error` with the text of `e`, and the log line: so
`app:error` with that payload is the only bus message, `starter.Start` is not called,
`Build` is not called when `Sync` failed, the watcher is not started, and `Run` returns
`e`. -/
theorem C8_initial_cycle_failure (dir : String) (i : StartOutcomes)
    (batches : List (ReloadOutcomes × List Event)) (e : Err)
    (hfail : i.sync = some e ∨ (i.sync = none ∧ i.build = some e)) :
    published (Run dir i batches).trace = [("app:error", some e)] ∧
    (∀ a ∈ (Run dir i batches).trace,
      (∀ path, a ≠ Action.starterStart path) ∧ (∀ d, a ≠ Action.watcherWatch d) ∧
      (i.sync = some e → ∀ m out, a ≠ Action.builderBuild m out)) ∧
    (Run dir i batches).trace =
      (if i.sync = some e then [Action.bfsSync]
        else [Action.bfsSync, Action.builderBuild "bud/internal/app/main.go" "bud/app"]) ++
        [ Action.busPublish "app:error" (some e),
          Action.logDebug "run: published event %q" ["app:error"] ] ∧
    (Run dir i batches).err = some e := by
  rcases hfail with hs | ⟨hs, hb⟩
  · have hr : Run dir i batches =
        { trace := [Action.bfsSync, Action.busPublish "app:error" (some e),
            Action.logDebug "run: published event %q" ["app:error"]],
          err := some e } := by
      simp [Run, publishError, hs]
    rw [hr]
    refine ⟨by simp [published], ?_, by simp [hs], rfl⟩
    intro a ha
    simp only [List.mem_cons, List.mem_singleton, List.not_mem_nil, or_false] at ha
    rcases ha with ha | ha | ha <;> subst ha <;> simp
  · have hr : Run dir i batches =
        { trace := [Action.bfsSync, Action.builderBuild "bud/internal/app/main.go" "bud/app",
            Action.busPublish "app:error" (some e),
            Action.logDebug "run: published event %q" ["app:error"]],
          err := some e } := by
      simp [Run, publishError, hs, hb]
    rw [hr]
    refine ⟨by simp [published], ?_, by simp [hs], rfl⟩
    intro a ha
    simp only [List.mem_cons, List.mem_singleton, List.not_mem_nil, or_false] at ha
    rcases ha with ha | ha | ha | ha <;> subst ha <;> simp [hs]

/-- The witness of C8: the initial `Build` fails; a batch is waiting and is never seen. -/
theorem C8_initial_cycle_failure_witness :
    ((⟨none, some "build failed", none, 7⟩ : StartOutcomes).sync = none ∧
      (⟨none, some "build failed", none, 7⟩ : StartOutcomes).build = some "build failed") ∧
    published (Run "." ⟨none, some "build failed", none, 7⟩
      [(⟨none, none, none, none, 8⟩, [⟨Op.OpUpdate, "public/app.css"⟩])]).trace =
      [("app:error", some "build failed")] ∧
    (Run "." ⟨none, some "build failed", none, 7⟩
      [(⟨none, none, none, none, 8⟩, [⟨Op.OpUpdate, "public/app.css"⟩])]).err =
      some "build failed" :=
  ⟨⟨rfl, rfl⟩,
   (C8_initial_cycle_failure "." ⟨none, some "build failed", none, 7⟩
      [(⟨none, none, none, none, 8⟩, [⟨Op.OpUpdate, "public/app.css"⟩])] "build failed"
      (Or.inr ⟨rfl, rfl⟩)).1,
   (C8_initial_cycle_failure "." ⟨none, some "build failed", none, 7⟩
      [(⟨none, none, none, none, 8⟩, [⟨Op.OpUpdate, "public/app.css"⟩])] "build failed"
      (Or.inr ⟨rfl, rfl⟩)).2.2.2⟩

/-! ## Theorems: the remote generator -/

theorem liveFrom_append (l : List Handle) (s t : List GenAction) :
    liveFrom l (s ++ t) = liveFrom (liveFrom l s) t := by
  simp [liveFrom, List.foldl_append]

theorem lastStartedFrom_append (last : Option Handle) (s t : List GenAction) :
    lastStartedFrom last (s ++ t) = lastStartedFrom (lastStartedFrom last s) t := by
  simp [lastStartedFrom, List.foldl_append]

theorem ordered_length (l : List Handle) (last : Option Handle) (t : List GenAction)
    (h : ordered l last t) : l.length ≤ 1 := by
  cases t with
  | nil => exact h
  | cons a t => exact h.1

theorem ordered_append (s t : List GenAction) :
    ∀ (l : List Handle) (last : Option Handle),
      ordered l last (s ++ t) ↔
        ordered l last s ∧ ordered (liveFrom l s) (lastStartedFrom last s) t := by
  induction s with
  | nil =>
    intro l last
    simp only [List.nil_append, ordered, liveFrom, lastStartedFrom, List.foldl_nil]
    exact ⟨fun h => ⟨ordered_length l last t h, h⟩, fun h => h.2⟩
  | cons a s ih =>
    intro l last
    have hl : liveFrom l (a :: s) = liveFrom (liveStep l a) s := rfl
    have hs : lastStartedFrom last (a :: s) = lastStartedFrom (startedStep last a) s := rfl
    rw [hl, hs]
    show (l.length ≤ 1 ∧ stepOk l last a ∧
        ordered (liveStep l a) (startedStep last a) (s ++ t)) ↔
      (l.length ≤ 1 ∧ stepOk l last a ∧ ordered (liveStep l a) (startedStep last a) s) ∧
        ordered (liveFrom (liveStep l a) s) (lastStartedFrom (startedStep last a) s) t
    rw [ih]
    tauto

theorem ordered_split (l : List Handle) (last : Option Handle) (t : List GenAction)
    (h : ordered l last t) (pre post : List GenAction) (hsplit : pre ++ post = t) :
    (liveFrom l pre).length ≤ 1 ∧
      ∀ a rest, post = a :: rest → stepOk (liveFrom l pre) (lastStartedFrom last pre) a := by
  subst hsplit
  have h2 := ((ordered_append pre post l last).1 h).2
  refine ⟨ordered_length _ _ _ h2, ?_⟩
  intro a rest hpost
  subst hpost
  exact h2.2.1

/-- One call of `GenerateFile` keeps the link between the field `g.process` and the
children started and not closed, and its actions are `ordered`. -/
theorem GenerateFile_ordered (o : GenOutcomes) (process last : Option Handle)
    (hlast : ∀ h, process = some h → last = some h) :
    ordered process.toList last (GenerateFile o process).trace ∧
    liveFrom process.toList (GenerateFile o process).trace =
      (GenerateFile o process).process.toList ∧
    (∀ h, (GenerateFile o process).process = some h →
      lastStartedFrom last (GenerateFile o process).trace = some h) := by
  rcases o with ⟨l, g, code, m, w, b, c, se, st⟩
  cases process with
  | none =>
    cases l <;> cases g <;> cases m <;> cases w <;> cases b <;> cases se <;>
      simp [GenerateFile, closeExisting, ordered, stepOk, liveStep, startedStep, liveFrom,
        lastStartedFrom]
  | some p =>
    have hp := hlast p rfl
    subst hp
    cases l <;> cases g <;> cases m <;> cases w <;> cases b <;> cases c <;> cases se <;>
      simp [GenerateFile, closeExisting, ordered, stepOk, liveStep, startedStep, liveFrom,
        lastStartedFrom]

theorem GenerateFiles_ordered (os : List GenOutcomes) :
    ∀ (process last : Option Handle), (∀ h, process = some h → last = some h) →
      ordered process.toList last (GenerateFiles process os).1 := by
  induction os with
  | nil =>
    intro process last _
    cases process <;> simp [GenerateFiles, ordered]
  | cons o os ih =>
    intro process last hlast
    obtain ⟨h1, h2, h3⟩ := GenerateFile_ordered o process last hlast
    simp only [GenerateFiles]
    rw [ordered_append]
    refine ⟨h1, ?_⟩
    rw [h2]
    exact ih _ _ h3

/-- C9: in every sequence of `GenerateFile` calls starting with `g.process` nil, whatever
the collaborators answer: at every moment at most one child is started and not closed;
when `cmd.Start` returns a child, no child is started and not closed, so every child
started before has had a `Close` that returned nil; the process handed to `bfs.Mount` is
the most recently started one and is the one child started and not closed. And when the
`Close` of the active child fails with `e`, that call of `GenerateFile` returns `e`,
keeps the field, and calls none of `cmd.Start`, `fsys.Defer`, `bfs.Mount`. -/
theorem C9_one_child_at_a_time (os : List GenOutcomes) :
    (∀ pre post : List GenAction, pre ++ post = (GenerateFiles none os).1 →
      (live pre).length ≤ 1) ∧
    (∀ (pre post : List GenAction) (path : String) (h : Handle),
      pre ++ GenAction.cmdStart path (some h) :: post = (GenerateFiles none os).1 →
      live pre = []) ∧
    (∀ (pre post : List GenAction) (h : Handle),
      pre ++ GenAction.bfsMount h :: post = (GenerateFiles none os).1 →
      lastStarted pre = some h ∧ live pre = [h]) ∧
    (∀ (o : GenOutcomes) (p : Handle) (e : Err),
      o.load = none → o.generate = none → o.mkdirAll = none → o.writeFile = none →
      o.build = none → o.close = some e →
      (GenerateFile o (some p)).err = some e ∧
      (GenerateFile o (some p)).process = some p ∧
      GenAction.processClose p (some e) ∈ (GenerateFile o (some p)).trace ∧
      ∀ a ∈ (GenerateFile o (some p)).trace,
        (∀ path started, a ≠ GenAction.cmdStart path started) ∧
        a ≠ GenAction.fsysDefer ∧ (∀ h, a ≠ GenAction.bfsMount h)) := by
  have hord : ordered [] none (GenerateFiles none os).1 :=
    GenerateFiles_ordered os none none (by simp)
  refine ⟨?_, ?_, ?_, ?_⟩
  · intro pre post hsplit
    exact (ordered_split [] none _ hord pre post hsplit).1
  · intro pre post path h hsplit
    exact (ordered_split [] none _ hord pre _ hsplit).2 _ post rfl
  · intro pre post h hsplit
    exact (ordered_split [] none _ hord pre _ hsplit).2 _ post rfl
  · intro o p e hl hg hm hw hb hc
    have ht : GenerateFile o (some p) =
        { trace :=
            [ GenAction.logDebug
                "framework/generator: generating the main.go service containing the generators",
              GenAction.load, GenAction.generate, GenAction.setFileData o.code,
              GenAction.logDebug
                "framework/generator: write the generator main.go file to bud/command/.generate/main.go",
              GenAction.moduleMkdirAll "bud/command/.generate",
              GenAction.moduleWriteFile "bud/command/.generate/main.go" o.code,
              GenAction.logDebug "framework/generator: build the main.go file to bud/.generate",
              GenAction.builderBuild "bud/command/.generate/main.go" "bud/.generate",
              GenAction.logDebug "framework/generator: closing existing process",
              GenAction.processClose p (some e) ],
          process := some p, err := some e } := by
      simp [GenerateFile, closeExisting, hl, hg, hm, hw, hb, hc]
    rw [ht]
    refine ⟨rfl, rfl, by simp, ?_⟩
    intro a ha
    simp only [List.mem_cons, List.mem_singleton, List.not_mem_nil, or_false] at ha
    rcases ha with ha | ha | ha | ha | ha | ha | ha | ha | ha | ha | ha <;> subst ha <;> simp

/-- The witness of C9: three calls; the first starts child 1, the second fails to close
it, the third closes it and starts child 2, which is the one mounted last. -/
theorem C9_one_child_at_a_time_witness :
    (GenerateFiles none
      [ ⟨none, none, "main", none, none, none, none, none, 1⟩,
        ⟨none, none, "main", none, none, none, some "close failed", none, 5⟩,
        ⟨none, none, "main", none, none, none, none, none, 2⟩ ]).2 = some 2 ∧
    (live (GenerateFiles none
      [ ⟨none, none, "main", none, none, none, none, none, 1⟩,
        ⟨none, none, "main", none, none, none, some "close failed", none, 5⟩,
        ⟨none, none, "main", none, none, none, none, none, 2⟩ ]).1).length ≤ 1 ∧
    (GenerateFile ⟨none, none, "main", none, none, none, some "close failed", none, 5⟩
      (some 1)).err = some "close failed" :=
  ⟨by decide,
   (C9_one_child_at_a_time
      [ ⟨none, none, "main", none, none, none, none, none, 1⟩,
        ⟨none, none, "main", none, none, none, some "close failed", none, 5⟩,
        ⟨none, none, "main", none, none, none, none, none, 2⟩ ]).1 _ [] (by simp),
   ((C9_one_child_at_a_time []).2.2.2
      ⟨none, none, "main", none, none, none, some "close failed", none, 5⟩ 1 "close failed"
      rfl rfl rfl rfl rfl rfl).1⟩

/-- C10: if `builder.Build` fails with `e` inside `GenerateFile`, the call returns a
non-nil error, calls neither `fsys.Defer` nor `bfs.Mount`, does not call `Close` (or
`Start`), and leaves `g.process` as it was. If `cmd.Start` fails with `e`, the call
returns `e` and calls neither `fsys.Defer` nor `bfs.Mount`. -/
theorem C10_build_or_start_failure (o : GenOutcomes) (process : Option Handle) (e : Err)
    (hl : o.load = none) (hg : o.generate = none) (hm : o.mkdirAll = none)
    (hw : o.writeFile = none) :
    (o.build = some e →
      (GenerateFile o process).err ≠ none ∧
      (GenerateFile o process).process = process ∧
      ∀ a ∈ (GenerateFile o process).trace,
        a ≠ GenAction.fsysDefer ∧ (∀ h, a ≠ GenAction.bfsMount h) ∧
        (∀ p r, a ≠ GenAction.processClose p r) ∧
        (∀ path started, a ≠ GenAction.cmdStart path started)) ∧
    (o.build = none → (process = none ∨ o.close = none) → o.startErr = some e →
      (GenerateFile o process).err = some e ∧
      GenAction.cmdStart "bud/.generate" none ∈ (GenerateFile o process).trace ∧
      ∀ a ∈ (GenerateFile o process).trace,
        a ≠ GenAction.fsysDefer ∧ (∀ h, a ≠ GenAction.bfsMount h)) := by
  constructor
  · intro hb
    have ht : GenerateFile o process =
        { trace :=
            [ GenAction.logDebug
                "framework/generator: generating the main.go service containing the generators",
              GenAction.load, GenAction.generate, GenAction.setFileData o.code,
              GenAction.logDebug
                "framework/generator: write the generator main.go file to bud/command/.generate/main.go",
              GenAction.moduleMkdirAll "bud/command/.generate",
              GenAction.moduleWriteFile "bud/command/.generate/main.go" o.code,
              GenAction.logDebug "framework/generator: build the main.go file to bud/.generate",
              GenAction.builderBuild "bud/command/.generate/main.go" "bud/.generate" ],
          process := process,
          err := some ("framework/generator: unable to build \x27bud/.generate\x27. " ++ e) } := by
      simp [GenerateFile, hl, hg, hm, hw, hb]
    rw [ht]
    refine ⟨by simp, rfl, ?_⟩
    intro a ha
    simp only [List.mem_cons, List.mem_singleton, List.not_mem_nil, or_false] at ha
    rcases ha with ha | ha | ha | ha | ha | ha | ha | ha | ha <;> subst ha <;> simp
  · intro hb hc hs
    have hclose : (closeExisting o process).2 = none := by
      rcases hc with hc | hc
      · subst hc; rfl
      · cases process <;> simp [closeExisting, hc]
    have hmem : ∀ a ∈ (closeExisting o process).1,
        a ≠ GenAction.fsysDefer ∧ (∀ h, a ≠ GenAction.bfsMount h) := by
      intro a ha
      cases process with
      | none => simp [closeExisting] at ha
      | some p =>
        simp only [closeExisting, List.mem_cons, List.mem_singleton, List.not_mem_nil,
          or_false] at ha
        rcases ha with ha | ha <;> subst ha <;> simp
    have ht : GenerateFile o process =
        { trace :=
            [ GenAction.logDebug
                "framework/generator: generating the main.go service containing the generators",
              GenAction.load, GenAction.generate, GenAction.setFileData o.code,
              GenAction.logDebug
                "framework/generator: write the generator main.go file to bud/command/.generate/main.go",
              GenAction.moduleMkdirAll "bud/command/.generate",
              GenAction.moduleWriteFile "bud/command/.generate/main.go" o.code,
              GenAction.logDebug "framework/generator: build the main.go file to bud/.generate",
              GenAction.builderBuild "bud/command/.generate/main.go" "bud/.generate" ] ++
              (closeExisting o process).1 ++
              [ GenAction.logDebug
                  "framework/generator: start bud/.generate that will serve the remote filesystem",
                GenAction.cmdStart "bud/.generate" none ],
          process := none, err := some e } := by
      simp [GenerateFile, hl, hg, hm, hw, hb, hs, hclose]
    rw [ht]
    refine ⟨rfl, by simp, ?_⟩
    intro a ha
    rcases List.mem_append.1 ha with ha | ha
    · rcases List.mem_append.1 ha with ha | ha
      · simp only [List.mem_cons, List.mem_singleton, List.not_mem_nil, or_false] at ha
        rcases ha with ha | ha | ha | ha | ha | ha | ha | ha | ha <;> subst ha <;> simp
      · exact hmem a ha
    · simp only [List.mem_cons, List.mem_singleton, List.not_mem_nil, or_false] at ha
      rcases ha with ha | ha <;> subst ha <;> simp

/-- The witness of C10: with child 4 active, a call whose `Build` fails keeps child 4. -/
theorem C10_build_or_start_failure_witness :
    (⟨none, none, "main", none, none, some "exit status 1", none, none, 5⟩ :
      GenOutcomes).build = some "exit status 1" ∧
    (GenerateFile ⟨none, none, "main", none, none, some "exit status 1", none, none, 5⟩
      (some 4)).process = some 4 :=
  ⟨rfl,
   ((C10_build_or_start_failure
      ⟨none, none, "main", none, none, some "exit status 1", none, none, 5⟩ (some 4)
      "exit status 1" rfl rfl rfl rfl).1 rfl).2.1⟩

end Bud
